import Mathlib

/-!
Verification of the script interpreter in src/Shell.h (class Shell) against
its natural-language specification.  The development below is a shallow
embedding of the interpreter at the default template instantiation
STACK_MAX = 16, VAR_MAX = 32, FULL_OP_NAMES arbitrary, for scripts held in
data memory (the `m_memory` address space, whose reader is a plain byte
load).  Machine integers are modelled as unbounded `Int` (the claims under
study do not depend on overflow), output text is not modelled except for
the count of trace records, and opcodes whose behaviour depends on an
external collaborator (stream input, EEPROM, Arduino pins, the dictionary)
leave the modelled fragment through a distinguished `Outcome.ext` result.
-/

namespace ArduinoShell

/-- Template parameter STACK_MAX (max stack depth), default 16. -/
def STACK_MAX : Int := 16

/-- Template parameter VAR_MAX (max number of variables), default 32. -/
def VAR_MAX : Int := 32

/-- Interpreter state.  In the C++ object the member arrays
`int m_var[VAR_MAX]; int m_stack[STACK_MAX];` are declared adjacently and
`read`/`write` index `m_var[addr]` for `addr` up to `VAR_MAX+STACK_MAX-1`
(the `$` opcode computes such addresses on purpose), so both arrays are
modelled as one cell list of length VAR_MAX + STACK_MAX = 48 in which cell
`32 + k` is `m_stack[k]`.  `sp` and `fp` are the offsets of `m_sp` and
`m_fp` from `m_stack` (16 = empty stack, the stack grows downwards).
`cycle` is `m_cycle`; `lines` counts emitted trace records (the output
model); `obase` is `m_base`. -/
structure ShellState where
  cells : List Int
  sp : Int
  fp : Int
  tos : Int
  marker : Int
  traceOn : Bool
  cycle : Nat
  lines : Nat
  obase : Int
deriving DecidableEq, Repr

/-- Read the cell at index `i` of the combined m_var/m_stack array
(out-of-range reads, undefined in C++, are modelled as 0). -/
def cellGet (cells : List Int) (i : Int) : Int :=
  if 0 ≤ i then cells.getD i.toNat 0 else 0

/-- Write the cell at index `i` (out-of-range writes are modelled as no-ops). -/
def cellSet (cells : List Int) (i : Int) (v : Int) : List Int :=
  if 0 ≤ i then cells.set i.toNat v else cells

/-- `depth()`: number of elements on the parameter stack,
`m_stack + STACK_MAX - m_sp`. -/
def depth (st : ShellState) : Int := STACK_MAX - st.sp

/-- Stack cell `m_sp[k]` relative to the current stack pointer. -/
def stkGet (st : ShellState) (k : Int) : Int := cellGet st.cells (VAR_MAX + st.sp + k)

/-- Write stack cell `m_sp[k]`. -/
def stkSet (st : ShellState) (k : Int) (v : Int) : ShellState :=
  { st with cells := cellSet st.cells (VAR_MAX + st.sp + k) v }

/-- `drop()`: `m_tos = (depth() > 0) ? *m_sp++ : 0;`. -/
def drop (st : ShellState) : ShellState :=
  if 0 < depth st then { st with tos := stkGet st 0, sp := st.sp + 1 }
  else { st with tos := 0 }

/-- `pop()`: returns the old top of stack and the new state. -/
def pop (st : ShellState) : Int × ShellState := (st.tos, drop st)

/-- `push(value)`: `if (depth() != STACK_MAX) *--m_sp = m_tos; m_tos = value;`. -/
def push (st : ShellState) (v : Int) : ShellState :=
  let st' :=
    if depth st ≠ STACK_MAX then
      { st with cells := cellSet st.cells (VAR_MAX + st.sp - 1) st.tos, sp := st.sp - 1 }
    else st
  { st' with tos := v }

/-- `clear()`: `m_sp = m_stack + STACK_MAX;`. -/
def clear (st : ShellState) : ShellState := { st with sp := STACK_MAX }

/-- `read(addr)`: returns 0 for `addr < 0 || addr >= VAR_MAX + STACK_MAX`,
otherwise `m_var[addr]` (which for addr in 32..47 is a stack cell). -/
def read (st : ShellState) (addr : Int) : Int :=
  if addr < 0 ∨ VAR_MAX + STACK_MAX ≤ addr then 0 else cellGet st.cells addr

/-- `write(addr, value)`: no-op for `addr < 0 || addr >= VAR_MAX + STACK_MAX`,
otherwise assigns `m_var[addr]`. -/
def write (st : ShellState) (addr v : Int) : ShellState :=
  if addr < 0 ∨ VAR_MAX + STACK_MAX ≤ addr then st
  else { st with cells := cellSet st.cells addr v }

/-- `as_bool(value)`: `value ? -1 : 0`. -/
def as_bool (v : Int) : Int := if v = 0 then 0 else -1

/-- The NUL byte (string terminator). -/
def nulChar : Char := Char.ofNat 0

/-- Byte of script memory at index `i`; at or past the end of the list this
is the terminating NUL of the C++ string. -/
def byteAt (prog : List Char) (i : Nat) : Char := prog.getD i nulChar

/-- `is_digit(c, base)` from Shell.h (base 16 accepts lowercase a..f only). -/
def is_digit (c : Char) (base : Int) : Bool :=
  if base = 2 then decide (48 ≤ c.toNat ∧ c.toNat ≤ 49)
  else if base = 16 ∧ 97 ≤ c.toNat then decide (97 ≤ c.toNat ∧ c.toNat ≤ 102)
  else decide (48 ≤ c.toNat ∧ c.toNat ≤ 57)

/-- Value of one digit character, as accumulated by the literal loop:
`w*base + (op - 'a') + 10` for lowercase hex digits, `w*base + (op - '0')`
otherwise. -/
def dval (c : Char) (base : Int) : Int :=
  if base = 16 ∧ 97 ≤ c.toNat then (c.toNat : Int) - 97 + 10 else (c.toNat : Int) - 48

/-- Structural worker for `digits`, counting down `k = prog.length + 1 - ip`
(one more than the bytes left; past the end every byte is NUL, not a digit,
so the counter never runs out before the C++ loop would stop). -/
def digitsAux (prog : List Char) (base : Int) : Nat → Int → Nat → Int × Nat
  | 0, w, ip => (w, ip)
  | k + 1, w, ip =>
    if is_digit (byteAt prog ip) base then
      digitsAux prog base k (w * base + dval (byteAt prog ip) base) (ip + 1)
    else (w, ip)

/-- The digit-accumulation do/while loop of the literal scanner: starting
with accumulator `w`, consume digit bytes from position `ip` onwards and
return the accumulator and the position of the first non-digit. -/
def digits (prog : List Char) (base : Int) (w : Int) (ip : Nat) : Int × Nat :=
  digitsAux prog base (prog.length + 1 - ip) w ip

/-- Structural worker for `scanMatch`, counting down
`k = prog.length + 1 - ip` (at or past the end of the script the byte read
is the NUL terminator, which always ends the scan, so the counter never
runs out before the C++ loop would stop). -/
def scanAux (prog : List Char) (lc rc : Char) : Nat → Nat → Nat → Char × Nat
  | 0, n, ip => if n = 0 then (rc, ip) else (nulChar, ip + 1)
  | k + 1, n, ip =>
    if n = 0 then (rc, ip)
    else
      let op := byteAt prog ip
      if op.toNat = 0 then (op, ip + 1)
      else scanAux prog lc rc k (if op = lc then n + 1 else if op = rc then n - 1 else n) (ip + 1)

/-- The nesting scan used by `{` and `(`: starting with nesting count `n`,
read bytes until the count returns to zero or a NUL byte appears; return
the byte that ended the scan together with the instruction pointer just
past it (printing of the bytes inside `(`...`)` is not modelled). -/
def scanMatch (prog : List Char) (lc rc : Char) (n : Nat) (ip : Nat) : Char × Nat :=
  scanAux prog lc rc (prog.length + 1 - ip) n ip

/-- Shift loop of the `g` (roll) opcode: performs
`m_sp[k] = m_sp[k-1]` for `k = count, ..., 1`. -/
def rollShift (st : ShellState) : Nat → ShellState
  | 0 => st
  | k + 1 => rollShift (stkSet st ((k : Int) + 1) (stkGet st (k : Int))) k

/-- Copy loop of the frame-resolve branch of `\`:
`while (n--) *--m_fp = m_sp[n];`, performed `m` times. -/
def frameCopy (st : ShellState) : Nat → ShellState
  | 0 => st
  | m + 1 =>
    let st1 := { st with fp := st.fp - 1 }
    let st2 := { st1 with cells := cellSet st1.cells (VAR_MAX + st1.fp) (stkGet st1 (m : Int)) }
    frameCopy st2 m

/-- The `\` (stack frame) opcode. -/
def opBackslash (st : ShellState) : ShellState :=
  let n := (pop st).1
  let st1 := (pop st).2
  if 0 < n then { st1 with fp := st1.sp + n - 1 }
  else
    let m := st1.fp - st1.sp + n
    if 0 ≤ m then
      let st2 := frameCopy st1 m.toNat
      { st2 with sp := st2.fp }
    else drop { st1 with sp := st1.fp }

/-- Trace output: when trace mode is on, one trace record is printed for
the dispatched byte and `++m_cycle` is executed; `lines` counts the
records. -/
def traceStep (st : ShellState) : ShellState :=
  if st.traceOn then { st with cycle := st.cycle + 1, lines := st.lines + 1 } else st

/-- The `e` (ifelse) opcode's operand selection:
`w = *(m_sp + 1); if (w != 0) { drop(); sp = pop(); } else { sp = pop(); drop(); } drop();`
returning the chosen block address and the resulting state. -/
def eSelect (st : ShellState) : Int × ShellState :=
  let w := stkGet st 1
  if w ≠ 0 then
    let st1 := drop st
    let a := (pop st1).1
    (a, drop (pop st1).2)
  else
    let a := (pop st).1
    (a, drop (drop (pop st).2))

/-- Opcodes of Shell.h whose behaviour depends on an external collaborator
(stream input, EEPROM dictionary, Arduino pins, clock): executions reaching
one of these leave the modelled fragment. -/
def extOp (c : Char) : Bool :=
  [Char.ofNat 96, ';', 'z', 'a', 'f', 't', 'k', 'K', 'A', 'D', 'E',
   'H', 'I', 'L', 'M', 'O', 'P', 'R', 'U', 'W', 'X'].contains c

/-- One dispatch step for the self-contained opcodes of the big switch:
`some st'` is `continue` with the new state, `none` means the opcode is
handled elsewhere (special forms, control flow, external, unknown). -/
def simpleStep (op : Char) (st : ShellState) : Option ShellState :=
  match op with
  | ' ' => some st
  | ',' => some st
  | 'n' => some { st with tos := -st.tos }
  | '+' => some { (pop st).2 with tos := (pop st).2.tos + (pop st).1 }
  | '-' => some { (pop st).2 with tos := (pop st).2.tos - (pop st).1 }
  | '*' => some { (pop st).2 with tos := (pop st).2.tos * (pop st).1 }
  | '/' => some { (pop st).2 with tos := Int.tdiv (pop st).2.tos (pop st).1 }
  | '%' => some { (pop st).2 with tos := Int.tmod (pop st).2.tos (pop st).1 }
  | 'h' =>
    some { (pop (pop st).2).2 with
      tos := Int.tdiv ((pop (pop st).2).2.tos * (pop (pop st).2).1) (pop st).1 }
  | 'F' => some (push st 0)
  | 'T' => some (push st (-1))
  | '=' => some { (pop st).2 with tos := as_bool (if (pop st).2.tos = (pop st).1 then 1 else 0) }
  | '#' => some { (pop st).2 with tos := as_bool (if (pop st).2.tos ≠ (pop st).1 then 1 else 0) }
  | '<' => some { (pop st).2 with tos := as_bool (if (pop st).2.tos < (pop st).1 then 1 else 0) }
  | '>' => some { (pop st).2 with tos := as_bool (if (pop st).1 < (pop st).2.tos then 1 else 0) }
  | '~' => some { st with tos := Int.lnot st.tos }
  | '&' => some { (pop st).2 with tos := Int.land (pop st).2.tos (pop st).1 }
  | '|' => some { (pop st).2 with tos := Int.lor (pop st).2.tos (pop st).1 }
  | '^' => some { (pop st).2 with tos := Int.xor (pop st).2.tos (pop st).1 }
  | 'c' => some (drop (if 0 < st.tos ∧ st.tos < depth st then { st with sp := st.sp + st.tos } else st))
  | 'd' => some (drop st)
  | 'g' =>
    if 0 < st.tos ∧ st.tos < depth st then
      some { rollShift { st with tos := stkGet st (st.tos - 1) } (st.tos - 1).toNat with
        sp := (rollShift { st with tos := stkGet st (st.tos - 1) } (st.tos - 1).toNat).sp + 1 }
    else some (drop st)
  | 'j' => some (push st (depth st))
  | 'o' => some (push st (stkGet st 0))
  | 'p' => some { st with tos := stkGet st (st.tos - 1) }
  | 'r' =>
    some (stkSet (stkSet { st with tos := stkGet st 1 } 1 (stkGet { st with tos := stkGet st 1 } 0))
      0 st.tos)
  | 's' => some (stkSet { st with tos := stkGet st 0 } 0 st.tos)
  | 'q' => some (if st.tos = 0 then st else push st st.tos)
  | 'u' => some (push st st.tos)
  | '@' => some { st with tos := read st st.tos }
  | '!' => some (write (pop (pop st).2).2 (pop st).1 (pop (pop st).2).1)
  | '\\' => some (opBackslash st)
  | '$' => some { st with tos := VAR_MAX + st.fp - st.tos }
  | 'b' => some { (pop st).2 with obase := (pop st).1 }
  | '?' => some (drop { st with tos := read st st.tos })
  | '.' => some (drop st)
  | 'm' => some st
  | 'v' => some (drop st)
  | 'S' => some st
  | 'y' => some st
  | 'C' => some (clear st)
  | 'N' => some st
  | 'Z' => some { st with traceOn := !st.traceOn }
  | '[' => some (if st.marker = -1 then { st with marker := depth st } else st)
  | _ => none

/-- The jobs of the interpreter loop: `main` is the top of the while loop
(about to read the byte at `ip`; `base` and `neg` are the loop-carried
literal-scanner locals), `disp` is the dispatch of the already-read byte
`op` (with `ip` just past it), `sub` is the recursive call
`execute(sp)` on a popped script address (entering `main` with the saved
frame pointer of the inner invocation), and `loopl`/`loopw` are the
iteration states of the `l` and `w` opcodes.  `fp0` is the frame pointer
saved by `int* fp = m_fp;` on entry to this `execute` invocation. -/
inductive Job where
  | main (fp0 : Int) (ip : Nat) (base : Int) (neg : Bool) (st : ShellState)
  | disp (fp0 : Int) (ip : Nat) (base : Int) (neg : Bool) (op : Char) (st : ShellState)
  | sub (addr : Int) (st : ShellState)
  | loopl (fp0 : Int) (ip : Nat) (base : Int) (neg : Bool) (addr i hi : Int) (st : ShellState)
  | loopw (fp0 : Int) (ip : Nat) (base : Int) (neg : Bool) (addr : Int) (st : ShellState)
deriving DecidableEq, Repr

/-- Result of running an `execute` invocation.  The two `return (NULL)`
statements of the source are distinguished: `okEnd` is the return after
the main loop (null terminator read; `m_fp = fp;` has been executed) and
`okBrace` is `case '}': return (NULL);` (which does not restore `m_fp`).
`err pos` is a failing return carrying the failing position.  `ext` marks
an execution that left the modelled fragment and `spin` marks fuel
exhaustion. -/
inductive Outcome where
  | okEnd (st : ShellState)
  | okBrace (st : ShellState)
  | err (pos : Nat) (st : ShellState)
  | ext
  | spin
deriving DecidableEq, Repr

/-- The literal-scanner prefix handling of one loop iteration: given the
byte `op0` read at `ip` (so the instruction pointer is `ip+1`), handle the
negative-number escape and the base prefix, returning the current byte,
instruction pointer, base and sign flag. -/
def literalStep (prog : List Char) (ip : Nat) (op0 : Char) (base : Int) (neg : Bool) :
    Char × Nat × Int × Bool :=
  if op0 = '-' then
    let p := byteAt prog (ip + 1)
    if p.toNat < 48 ∨ 57 < p.toNat then (op0, ip + 1, base, neg)
    else (p, ip + 2, base, true)
  else if op0 = '0' then
    let q := byteAt prog (ip + 1)
    if q = 'x' then (byteAt prog (ip + 2), ip + 3, 16, neg)
    else if q = 'b' then (byteAt prog (ip + 2), ip + 3, 2, neg)
    else (op0, ip + 1, base, neg)
  else (op0, ip + 1, base, neg)

/-- The interpreter.  `run prog fuel job` executes `job` with the given
fuel (each recursive step consumes one unit; `fuel` only bounds the work,
it does not influence results other than producing `spin` when it runs
out).  Faithful transcription of `execute(const char*)` of Shell.h for a
script in data memory at the default template parameters; sub-script
execution re-enters at `Job.main` with the saved frame pointer of the
inner invocation, mirroring the recursive `execute` call. -/
def run (prog : List Char) : Nat → Job → Outcome
  | 0, _ => .spin
  | fuel + 1, .main fp0 ip base neg st =>
    let op0 := byteAt prog ip
    if op0.toNat = 0 then .okEnd { st with fp := fp0 }
    else
      let t := literalStep prog ip op0 base neg
      let op1 := t.1
      let ip2 := t.2.1
      let base1 := t.2.2.1
      let neg1 := t.2.2.2
      if is_digit op1 base1 then
        let r := digits prog base1 (dval op1 base1) ip2
        let w := if neg1 then -r.1 else r.1
        let st1 := push st w
        let op2 := byteAt prog r.2
        if op2.toNat = 0 then .okEnd { st1 with fp := fp0 }
        else run prog fuel (.disp fp0 (r.2 + 1) 10 false op2 st1)
      else run prog fuel (.disp fp0 ip2 base1 neg1 op1 st)
  | fuel + 1, .disp fp0 ip base neg op0 stIn =>
    let op := if op0 = '\n' then 'N' else op0
    let st := traceStep stIn
    match simpleStep op st with
    | some st1 => run prog fuel (.main fp0 ip base neg st1)
    | none =>
      match op with
      | '\x7b' =>
        let st1 := push st (ip : Int)
        let sc := scanMatch prog '\x7b' '\x7d' 1 ip
        if sc.1.toNat = 0 then .err (sc.2 - 2) { st1 with fp := fp0 }
        else run prog fuel (.main fp0 sc.2 base neg st1)
      | '\x7d' => .okBrace st
      | '(' =>
        let sc := scanMatch prog '(' ')' 1 ip
        if sc.1.toNat = 0 then .err (sc.2 - 2) { st with fp := fp0 }
        else run prog fuel (.main fp0 sc.2 base neg st)
      | ']' =>
        if st.marker ≠ -1 then
          run prog fuel (.main fp0 ip base neg { push st (depth st - st.marker) with marker := -1 })
        else if (byteAt prog ip).toNat ≠ 0 then
          run prog fuel (.main fp0 (ip + 1) base neg (push st ((byteAt prog ip).toNat : Int)))
        else run prog fuel (.main fp0 ip base neg st)
      | '\'' =>
        if (byteAt prog ip).toNat ≠ 0 then
          run prog fuel (.main fp0 (ip + 1) base neg (push st ((byteAt prog ip).toNat : Int)))
        else run prog fuel (.main fp0 ip base neg st)
      | 'e' =>
        match run prog fuel (.sub (eSelect st).1 (eSelect st).2) with
        | .okEnd st4 => run prog fuel (.main fp0 ip base neg st4)
        | .okBrace st4 => run prog fuel (.main fp0 ip base neg st4)
        | .err _ st4 => .err (ip - 1) st4
        | .ext => .ext
        | .spin => .spin
      | 'i' =>
        if (pop (pop st).2).1 ≠ 0 then
          match run prog fuel (.sub (pop st).1 (pop (pop st).2).2) with
          | .okEnd st4 => run prog fuel (.main fp0 ip base neg st4)
          | .okBrace st4 => run prog fuel (.main fp0 ip base neg st4)
          | .err _ st4 => .err (ip - 1) st4
          | .ext => .ext
          | .spin => .spin
        else run prog fuel (.main fp0 ip base neg (pop (pop st).2).2)
      | 'l' =>
        run prog fuel (.loopl fp0 ip base neg (pop st).1 (pop (pop (pop st).2).2).1
          (pop (pop st).2).1 (pop (pop (pop st).2).2).2)
      | 'w' =>
        run prog fuel (.loopw fp0 ip base neg (pop st).1 (pop st).2)
      | 'x' =>
        match run prog fuel (.sub (pop st).1 (pop st).2) with
        | .okEnd st4 => run prog fuel (.main fp0 ip base neg st4)
        | .okBrace st4 => run prog fuel (.main fp0 ip base neg st4)
        | .err _ st4 => .err (ip - 1) st4
        | .ext => .ext
        | .spin => .spin
      | ':' =>
        if read (pop st).2 (pop st).1 = 0 then .err (ip - 1) (pop st).2
        else
          match run prog fuel (.sub (read (pop st).2 (pop st).1) (pop st).2) with
          | .okEnd st4 => run prog fuel (.main fp0 ip base neg st4)
          | .okBrace st4 => run prog fuel (.main fp0 ip base neg st4)
          | .err _ st4 => .err (ip - 1) st4
          | .ext => .ext
          | .spin => .spin
      | _ => if extOp op then .ext else .err (ip - 1) st
  | fuel + 1, .sub a st =>
    if 0 ≤ a ∧ a ≤ (prog.length : Int) then
      run prog fuel (.main st.fp a.toNat 10 false st)
    else .ext
  | fuel + 1, .loopl fp0 ip base neg a i hi st =>
    if i ≤ hi then
      match run prog fuel (.sub a (push st i)) with
      | .okEnd st2 => run prog fuel (.loopl fp0 ip base neg a (i + 1) hi st2)
      | .okBrace st2 => run prog fuel (.loopl fp0 ip base neg a (i + 1) hi st2)
      | .err _ st2 => .err (ip - 1) st2
      | .ext => .ext
      | .spin => .spin
    else run prog fuel (.main fp0 ip base neg st)
  | fuel + 1, .loopw fp0 ip base neg a st =>
    match run prog fuel (.sub a st) with
    | .okEnd st1 =>
      if (pop st1).1 ≠ 0 then run prog fuel (.loopw fp0 ip base neg a (pop st1).2)
      else run prog fuel (.main fp0 ip base neg (pop st1).2)
    | .okBrace st1 =>
      if (pop st1).1 ≠ 0 then run prog fuel (.loopw fp0 ip base neg a (pop st1).2)
      else run prog fuel (.main fp0 ip base neg (pop st1).2)
    | .err _ st1 => .err (ip - 1) st1
    | .ext => .ext
    | .spin => .spin

/-- `execute(script)` on a data-memory script: enter the main loop at
position 0 with locals `neg = false`, `base = 10` and the saved frame
pointer. -/
def execute (prog : List Char) (fuel : Nat) (st : ShellState) : Outcome :=
  run prog fuel (.main st.fp 0 10 false st)

/-- `execute` started at an arbitrary position inside the script memory
(as happens for captured blocks). -/
def executeAt (prog : List Char) (fuel : Nat) (ip : Nat) (st : ShellState) : Outcome :=
  run prog fuel (.main st.fp ip 10 false st)

/-- The state carried by a returning outcome, if any. -/
def outState : Outcome → Option ShellState
  | .okEnd st => some st
  | .okBrace st => some st
  | .err _ st => some st
  | .ext => none
  | .spin => none

/-- Frame pointer of the returned state. -/
def outFp (o : Outcome) : Option Int := (outState o).map (·.fp)

/-- Cycle counter of the returned state. -/
def outCycle (o : Outcome) : Option Nat := (outState o).map (·.cycle)

/-- Trace-record count of the returned state. -/
def outLines (o : Outcome) : Option Nat := (outState o).map (·.lines)

/-- Failing position of a failing outcome. -/
def errPos : Outcome → Option Nat
  | .err p _ => some p
  | _ => none

/-- The observable parameter stack, top first, as printed by `print()`:
the `tos` register followed by the in-memory cells from `m_sp` up to
`m_stack + STACK_MAX - 2` (the deepest in-memory cell holds the register
spill of the first push and is not part of the observable stack). -/
def stackList (st : ShellState) : List Int :=
  if st.sp < STACK_MAX then
    st.tos :: (List.range (15 - st.sp.toNat)).map
      (fun j : Nat => cellGet st.cells (VAR_MAX + st.sp + (j : Int)))
  else []

/-- Observable stack of a returning outcome. -/
def stackListOf (o : Outcome) : Option (List Int) := (outState o).map stackList

/-- A representative freshly-constructed interpreter state (empty stack,
zeroed memory, trace off, as after the constructor with no EEPROM state). -/
def initState : ShellState :=
  { cells := List.replicate 48 0, sp := 16, fp := 16, tos := 0, marker := -1,
    traceOn := false, cycle := 0, lines := 0, obase := 10 }

/-! ### Basic facts about the state helpers -/

@[simp] theorem pop_snd (st : ShellState) : (pop st).2 = drop st := rfl

theorem traceStep_marker (st : ShellState) : (traceStep st).marker = st.marker := by
  unfold traceStep; split <;> rfl

theorem push_tos (st : ShellState) (v : Int) : (push st v).tos = v := rfl

theorem push_sp_of_eq (st : ShellState) (v : Int) (h : depth st = STACK_MAX) :
    (push st v).sp = st.sp := by
  unfold push
  rw [if_neg (by simp [h])]

theorem push_sp_of_ne (st : ShellState) (v : Int) (h : depth st ≠ STACK_MAX) :
    (push st v).sp = st.sp - 1 := by
  unfold push
  rw [if_pos h]

theorem drop_sp_pos (st : ShellState) (h : 0 < depth st) : (drop st).sp = st.sp + 1 := by
  unfold drop
  rw [if_pos h]

theorem drop_sp_nonpos (st : ShellState) (h : ¬ 0 < depth st) : (drop st).sp = st.sp := by
  unfold drop
  rw [if_neg h]

/-- At depth 0 the pop/drop underflow branch is taken: the stack pointer is
unchanged and the top-of-stack register becomes 0. -/
theorem drop_empty (st : ShellState) (h : depth st = 0) : drop st = { st with tos := 0 } := by
  unfold drop
  rw [if_neg (by omega)]

/-! ### C3: stack underflow -/

/-- C3 (corrected).  On an interpreter state with depth() = 0, `pop()`
returns the current value of the `m_tos` register (not necessarily 0), sets
the register to 0 and leaves depth at 0; `drop()` sets the register to 0
and leaves depth at 0; and every pop after the first yields 0.  (The claim
as stated, that `pop()` returns 0 on every depth-0 state, is refuted by
`c3_counterexample`.) -/
theorem c3_underflow (st : ShellState) (h : depth st = 0) :
    (pop st).1 = st.tos ∧ (pop st).2.tos = 0 ∧ depth (pop st).2 = 0 ∧
    (pop (pop st).2).1 = 0 ∧ (drop st).tos = 0 ∧ depth (drop st) = 0 := by
  have hd := drop_empty st h
  refine ⟨rfl, ?_, ?_, ?_, ?_, ?_⟩
  · show (drop st).tos = 0
    rw [hd]
  · show depth (drop st) = 0
    rw [hd]; exact h
  · show (drop st).tos = 0
    rw [hd]
  · show (drop st).tos = 0
    rw [hd]
  · show depth (drop st) = 0
    rw [hd]; exact h

/-- Witness for C3 at the initial state (depth 0). -/
theorem c3_witness :
    (pop initState).1 = initState.tos ∧ (pop initState).2.tos = 0 ∧
    depth (pop initState).2 = 0 ∧ (pop (pop initState).2).1 = 0 ∧
    (drop initState).tos = 0 ∧ depth (drop initState) = 0 :=
  c3_underflow initState (by decide)

/-- C3 counterexample: pushing 7 and then executing `clear()` (the `C`
opcode) reaches a state with depth() = 0 on which `pop()` returns 7, not 0
as the claim states. -/
theorem c3_counterexample :
    depth (clear (push initState 7)) = 0 ∧
    (pop (clear (push initState 7))).1 = 7 ∧ ¬ (7 : Int) = 0 := by decide

/-! ### C4: variable table bounds -/

/-- C4 (corrected).  The guard in `read`/`write` is
`addr < 0 || addr >= VAR_MAX + STACK_MAX`, not `addr >= VAR_MAX`: reads
outside 0..VAR_MAX+STACK_MAX-1 return 0 and writes there are no-ops, while
every address in 0..VAR_MAX+STACK_MAX-1 accesses the addressed cell (the
cells at VAR_MAX..VAR_MAX+STACK_MAX-1 being the adjacent parameter-stack
cells used by the `$` opcode).  (The claim's VAR_MAX bound is refuted by
`c4_counterexample`.) -/
theorem c4_bounds :
    (∀ (st : ShellState) (addr v : Int), addr < 0 ∨ VAR_MAX + STACK_MAX ≤ addr →
      read st addr = 0 ∧ write st addr v = st) ∧
    (∀ (st : ShellState) (addr v : Int), st.cells.length = 48 →
      0 ≤ addr → addr < VAR_MAX + STACK_MAX → read (write st addr v) addr = v) := by
  constructor
  · intro st addr v h
    unfold read write
    rw [if_pos h, if_pos h]
    exact ⟨rfl, rfl⟩
  · intro st addr v hl h0 h48
    have h48' : addr < 48 := by unfold VAR_MAX STACK_MAX at h48; omega
    have hc : ¬ (addr < 0 ∨ VAR_MAX + STACK_MAX ≤ addr) := by
      unfold VAR_MAX STACK_MAX
      omega
    unfold write
    rw [if_neg hc]
    unfold read
    rw [if_neg hc]
    show cellGet (cellSet st.cells addr v) addr = v
    unfold cellGet cellSet
    rw [if_pos h0, if_pos h0, List.getD_eq_getElem?_getD,
      List.getElem?_set_self (by rw [hl]; omega)]
    rfl

/-- Witness for C4: address −1 is rejected, address 3 reads back a write. -/
theorem c4_witness :
    (read initState (-1) = 0 ∧ write initState (-1) 9 = initState) ∧
    read (write initState 3 9) 3 = 9 :=
  ⟨c4_bounds.1 initState (-1) 9 (Or.inl (by decide)),
   c4_bounds.2 initState 3 9 (by decide) (by decide) (by decide)⟩

/-- C4 counterexample: address VAR_MAX = 32 is outside 0..VAR_MAX−1, yet
`write` stores through it (into the first parameter-stack cell) and `read`
returns the stored value, not 0. -/
theorem c4_counterexample :
    VAR_MAX = 32 ∧ read (write initState 32 5) 32 = 5 ∧
    ¬ write initState 32 5 = initState := by decide

/-! ### C8: canonical booleans -/

theorem as_bool_cases (v : Int) : as_bool v = -1 ∨ as_bool v = 0 := by
  unfold as_bool
  split
  · exact Or.inr rfl
  · exact Or.inl rfl

/-- C8 (confirmed).  Each comparison opcode `=`, `#`, `<`, `>` and each of
the constants `F`, `T` leaves a canonical boolean on top of the stack:
whatever the operands, the resulting top of stack is −1 or 0. -/
theorem c8_bool (c : Char) (hc : c ∈ ['=', '#', '<', '>', 'F', 'T'])
    (st st' : ShellState) (h : simpleStep c st = some st') :
    st'.tos = -1 ∨ st'.tos = 0 := by
  fin_cases hc
  · have h' : (some { (pop st).2 with
        tos := as_bool (if (pop st).2.tos = (pop st).1 then 1 else 0) } : Option ShellState)
        = some st' := h
    injection h' with he
    subst he
    exact as_bool_cases _
  · have h' : (some { (pop st).2 with
        tos := as_bool (if (pop st).2.tos ≠ (pop st).1 then 1 else 0) } : Option ShellState)
        = some st' := h
    injection h' with he
    subst he
    exact as_bool_cases _
  · have h' : (some { (pop st).2 with
        tos := as_bool (if (pop st).2.tos < (pop st).1 then 1 else 0) } : Option ShellState)
        = some st' := h
    injection h' with he
    subst he
    exact as_bool_cases _
  · have h' : (some { (pop st).2 with
        tos := as_bool (if (pop st).1 < (pop st).2.tos then 1 else 0) } : Option ShellState)
        = some st' := h
    injection h' with he
    subst he
    exact as_bool_cases _
  · have h' : (some (push st 0) : Option ShellState) = some st' := h
    injection h' with he
    subst he
    exact Or.inr (push_tos st 0)
  · have h' : (some (push st (-1)) : Option ShellState) = some st' := h
    injection h' with he
    subst he
    exact Or.inl (push_tos st (-1))

/-- Witness for C8: comparing 3 = 3 leaves −1 (true) on top. -/
theorem c8_witness :
    ({ (pop (push (push initState 3) 3)).2 with tos := as_bool 1 } : ShellState).tos = -1 ∨
    ({ (pop (push (push initState 3) 3)).2 with tos := as_bool 1 } : ShellState).tos = 0 :=
  c8_bool '=' (by decide) (push (push initState 3) 3) _ (by decide)

/-! ### C9: stack depth bounds -/

/-- Sequences of the stack primitives of Shell.h. -/
inductive StackOp where
  | opPush (v : Int)
  | opPop
  | opDrop
  | opClear
deriving DecidableEq, Repr

/-- Apply one stack primitive. -/
def applyOp (st : ShellState) : StackOp → ShellState
  | .opPush v => push st v
  | .opPop => (pop st).2
  | .opDrop => drop st
  | .opClear => clear st

/-- Apply a sequence of stack primitives, first first. -/
def applyOps (ops : List StackOp) (st : ShellState) : ShellState := ops.foldl applyOp st

/-- The depth invariant: depth() ∈ [0, STACK_MAX]. -/
def stackOk (st : ShellState) : Prop := 0 ≤ depth st ∧ depth st ≤ STACK_MAX

instance (st : ShellState) : Decidable (stackOk st) := by
  unfold stackOk; infer_instance

theorem stackOk_push (st : ShellState) (v : Int) (h : stackOk st) : stackOk (push st v) := by
  obtain ⟨h1, h2⟩ := h
  by_cases hd : depth st = STACK_MAX
  · have hs := push_sp_of_eq st v hd
    unfold stackOk depth STACK_MAX at *
    omega
  · have hs := push_sp_of_ne st v hd
    unfold stackOk depth STACK_MAX at *
    omega

theorem stackOk_drop (st : ShellState) (h : stackOk st) : stackOk (drop st) := by
  obtain ⟨h1, h2⟩ := h
  by_cases hd : 0 < depth st
  · have hs := drop_sp_pos st hd
    unfold stackOk depth STACK_MAX at *
    omega
  · have hs := drop_sp_nonpos st hd
    unfold stackOk depth STACK_MAX at *
    omega

theorem stackOk_applyOp (st : ShellState) (o : StackOp) (h : stackOk st) :
    stackOk (applyOp st o) := by
  cases o with
  | opPush v => exact stackOk_push st v h
  | opPop => exact stackOk_drop st h
  | opDrop => exact stackOk_drop st h
  | opClear =>
    show stackOk (clear st)
    unfold stackOk depth clear STACK_MAX
    norm_num

/-- C9 (confirmed).  For every sequence of push/pop/drop/clear calls from a
state satisfying the depth invariant, depth() stays in [0, STACK_MAX]; and
push on a full stack leaves depth at STACK_MAX while the pushed value
becomes the new top of stack. -/
theorem c9_depth :
    (∀ (ops : List StackOp) (st : ShellState), stackOk st → stackOk (applyOps ops st)) ∧
    (∀ (st : ShellState) (v : Int), stackOk st → depth st = STACK_MAX →
      depth (push st v) = STACK_MAX ∧ (push st v).tos = v) := by
  constructor
  · intro ops
    induction ops with
    | nil => intro st h; exact h
    | cons o t ih =>
      intro st h
      exact ih _ (stackOk_applyOp st o h)
  · intro st v _ hd
    refine ⟨?_, push_tos st v⟩
    have hs := push_sp_of_eq st v hd
    unfold depth STACK_MAX at *
    omega

/-- A state with a full stack (depth STACK_MAX). -/
def fullState : ShellState := { initState with sp := 0 }

/-- Witness for C9 at concrete inputs. -/
theorem c9_witness :
    stackOk (applyOps [.opPush 3, .opPop, .opClear, .opDrop] initState) ∧
    (depth (push fullState 9) = STACK_MAX ∧ (push fullState 9).tos = 9) :=
  ⟨c9_depth.1 [.opPush 3, .opPop, .opClear, .opDrop] initState (by decide),
   c9_depth.2 fullState 9 (by decide) (by decide)⟩

/-! ### C10: `]` with no active marker -/

/-- C10 (confirmed).  When `]` is dispatched with no active marker
(marker = −1) it does not push a depth count and does not fail: it falls
through to the `'` (character literal) case, so it behaves exactly like
`'`, and when the next script byte is nonzero it pushes that byte as a
value and advances the instruction pointer past it. -/
theorem c10_marker (prog : List Char) (fuel : Nat) (fp0 : Int) (ip : Nat) (base : Int)
    (neg : Bool) (st : ShellState) (hm : st.marker = -1) :
    run prog (fuel + 1) (.disp fp0 ip base neg ']' st) =
      run prog (fuel + 1) (.disp fp0 ip base neg '\'' st) ∧
    ((byteAt prog ip).toNat ≠ 0 →
      run prog (fuel + 1) (.disp fp0 ip base neg ']' st) =
        run prog fuel (.main fp0 (ip + 1) base neg
          (push (traceStep st) ((byteAt prog ip).toNat : Int)))) := by
  have hm' : ¬ (traceStep st).marker ≠ -1 := by
    rw [traceStep_marker]
    simp [hm]
  have e1 : run prog (fuel + 1) (.disp fp0 ip base neg ']' st) =
      (if (traceStep st).marker ≠ -1 then
        run prog fuel (.main fp0 ip base neg
          { push (traceStep st) (depth (traceStep st) - (traceStep st).marker) with marker := -1 })
      else if (byteAt prog ip).toNat ≠ 0 then
        run prog fuel (.main fp0 (ip + 1) base neg
          (push (traceStep st) ((byteAt prog ip).toNat : Int)))
      else run prog fuel (.main fp0 ip base neg (traceStep st))) := rfl
  have e2 : run prog (fuel + 1) (.disp fp0 ip base neg '\'' st) =
      (if (byteAt prog ip).toNat ≠ 0 then
        run prog fuel (.main fp0 (ip + 1) base neg
          (push (traceStep st) ((byteAt prog ip).toNat : Int)))
      else run prog fuel (.main fp0 ip base neg (traceStep st))) := rfl
  rw [e1, e2, if_neg hm']
  exact ⟨rfl, fun hb => by rw [if_pos hb]⟩

/-- Witness for C10: with no marker active, `]` pushes the following byte
`A` (65). -/
theorem c10_witness :
    run [']', 'A'] 2 (.disp 16 1 10 false ']' initState) =
      run [']', 'A'] 2 (.disp 16 1 10 false '\'' initState) ∧
    run [']', 'A'] 2 (.disp 16 1 10 false ']' initState) =
      run [']', 'A'] 1 (.main 16 2 10 false (push (traceStep initState) 65)) :=
  ⟨(c10_marker [']', 'A'] 1 16 1 10 false initState rfl).1,
   (c10_marker [']', 'A'] 1 16 1 10 false initState rfl).2 (by decide)⟩

/-! ### The run invariants: trace/cycle lockstep and frame restoration -/

/-- Difference between the cycle counter and the number of emitted trace
records.  The trace block increments both together, and nothing else
touches either, so this quantity is invariant under execution. -/
def clDiff (st : ShellState) : Int := (st.cycle : Int) - (st.lines : Int)

/-- The saved frame pointer `fp` of the `execute` invocation a job belongs
to (for a `sub` job, the inner invocation saves the current `m_fp`). -/
def jobFp0 : Job → Int
  | .main fp0 _ _ _ _ => fp0
  | .disp fp0 _ _ _ _ _ => fp0
  | .sub _ st => st.fp
  | .loopl fp0 _ _ _ _ _ _ _ => fp0
  | .loopw fp0 _ _ _ _ _ => fp0

/-- The state a job starts from. -/
def jobSt : Job → ShellState
  | .main _ _ _ _ st => st
  | .disp _ _ _ _ _ st => st
  | .sub _ st => st
  | .loopl _ _ _ _ _ _ _ st => st
  | .loopw _ _ _ _ _ st => st

/-- Invariant of outcomes: every state carried out of a job preserves
`clDiff`, and a state returned through `okEnd` (the return after the main
loop, past `m_fp = fp;`) carries the restored frame pointer. -/
def Inv (f d : Int) : Outcome → Prop
  | .okEnd st => st.fp = f ∧ clDiff st = d
  | .okBrace st => clDiff st = d
  | .err _ st => clDiff st = d
  | .ext => True
  | .spin => True

@[simp] theorem Inv_okEnd (f d : Int) (st : ShellState) :
    Inv f d (.okEnd st) = (st.fp = f ∧ clDiff st = d) := rfl

@[simp] theorem Inv_okBrace (f d : Int) (st : ShellState) :
    Inv f d (.okBrace st) = (clDiff st = d) := rfl

@[simp] theorem Inv_err (f d : Int) (p : Nat) (st : ShellState) :
    Inv f d (.err p st) = (clDiff st = d) := rfl

@[simp] theorem Inv_ext (f d : Int) : Inv f d .ext = True := rfl

@[simp] theorem Inv_spin (f d : Int) : Inv f d .spin = True := rfl

@[simp] theorem clDiff_tosSet (st : ShellState) (v : Int) :
    clDiff { st with tos := v } = clDiff st := rfl

@[simp] theorem clDiff_fpSet (st : ShellState) (v : Int) :
    clDiff { st with fp := v } = clDiff st := rfl

@[simp] theorem clDiff_spSet (st : ShellState) (v : Int) :
    clDiff { st with sp := v } = clDiff st := rfl

@[simp] theorem clDiff_markerSet (st : ShellState) (v : Int) :
    clDiff { st with marker := v } = clDiff st := rfl

@[simp] theorem clDiff_obaseSet (st : ShellState) (v : Int) :
    clDiff { st with obase := v } = clDiff st := rfl

@[simp] theorem clDiff_traceSet (st : ShellState) (b : Bool) :
    clDiff { st with traceOn := b } = clDiff st := rfl

@[simp] theorem clDiff_cellsSet (st : ShellState) (l : List Int) :
    clDiff { st with cells := l } = clDiff st := rfl

@[simp] theorem clDiff_push (st : ShellState) (v : Int) :
    clDiff (push st v) = clDiff st := by
  unfold push
  split <;> rfl

@[simp] theorem clDiff_drop (st : ShellState) : clDiff (drop st) = clDiff st := by
  unfold drop
  split <;> rfl

@[simp] theorem clDiff_clear (st : ShellState) : clDiff (clear st) = clDiff st := rfl

@[simp] theorem clDiff_write (st : ShellState) (a v : Int) :
    clDiff (write st a v) = clDiff st := by
  unfold write
  split <;> rfl

@[simp] theorem clDiff_stkSet (st : ShellState) (k v : Int) :
    clDiff (stkSet st k v) = clDiff st := rfl

@[simp] theorem clDiff_traceStep (st : ShellState) :
    clDiff (traceStep st) = clDiff st := by
  unfold traceStep clDiff
  split
  · push_cast
    ring
  · rfl

@[simp] theorem clDiff_rollShift (st : ShellState) (k : Nat) :
    clDiff (rollShift st k) = clDiff st := by
  induction k generalizing st with
  | zero => rfl
  | succ m ih =>
    show clDiff (rollShift (stkSet st _ _) m) = clDiff st
    rw [ih, clDiff_stkSet]

@[simp] theorem clDiff_frameCopy (st : ShellState) (k : Nat) :
    clDiff (frameCopy st k) = clDiff st := by
  induction k generalizing st with
  | zero => rfl
  | succ m ih =>
    show clDiff (frameCopy _ m) = clDiff st
    rw [ih]
    rfl

@[simp] theorem clDiff_opBackslash (st : ShellState) :
    clDiff (opBackslash st) = clDiff st := by
  unfold opBackslash
  dsimp only
  split
  · simp
  · split <;> simp

@[simp] theorem clDiff_eSelect (st : ShellState) :
    clDiff (eSelect st).2 = clDiff st := by
  unfold eSelect
  dsimp only
  split <;> simp

/-- The self-contained opcodes preserve `clDiff`. -/
theorem clDiff_simpleStep (op : Char) (st st' : ShellState)
    (h : simpleStep op st = some st') : clDiff st' = clDiff st := by
  unfold simpleStep at h
  repeat' (first | split at h | dsimp only at h)
  all_goals first
    | (injection h with he
       subst he
       simp)
    | injection h

/-- Instantiate the induction hypothesis of `run_inv` at a job. -/
theorem ih_cast {prog : List Char} {n : Nat}
    (ih : ∀ job, Inv (jobFp0 job) (clDiff (jobSt job)) (run prog n job))
    (j : Job) {f d : Int} (hf : jobFp0 j = f) (hd : clDiff (jobSt j) = d) :
    Inv f d (run prog n j) := by
  subst hf
  subst hd
  exact ih j

/-- The master invariant of the interpreter: every state carried out of a
job preserves `clDiff` (the cycle counter and the trace-record count move
in lockstep), and every `okEnd` return (the `return (NULL)` after the main
loop) carries the frame pointer saved on entry to the invocation.  Proved
by induction on the fuel, walking every branch of `run`. -/
theorem run_inv (prog : List Char) :
    ∀ (fuel : Nat) (job : Job), Inv (jobFp0 job) (clDiff (jobSt job)) (run prog fuel job) := by
  intro fuel
  induction fuel with
  | zero =>
    intro job
    simp [run]
  | succ n ih =>
    intro job
    cases job with
    | main fp0 ip base neg st =>
      show Inv fp0 (clDiff st) (run prog (n + 1) (.main fp0 ip base neg st))
      simp only [run]
      split
      · exact ⟨rfl, rfl⟩
      · split
        · split
          · exact ⟨rfl, by simp⟩
          · exact ih_cast ih _ rfl (by simp [jobSt])
        · exact ih_cast ih _ rfl (by simp [jobSt])
    | sub a st =>
      show Inv st.fp (clDiff st) (run prog (n + 1) (.sub a st))
      simp only [run]
      split
      · exact ih_cast ih _ rfl rfl
      · exact trivial
    | loopl fp0 ip base neg a i hi st =>
      show Inv fp0 (clDiff st) (run prog (n + 1) (.loopl fp0 ip base neg a i hi st))
      simp only [run]
      split
      · split
        next st2 heq2 =>
          have hI := ih (Job.sub a (push st i))
          rw [heq2] at hI
          simp only [jobFp0, jobSt, Inv_okEnd] at hI
          exact ih_cast ih _ rfl (by simp [jobSt, hI.2])
        next st2 heq2 =>
          have hI := ih (Job.sub a (push st i))
          rw [heq2] at hI
          simp only [jobFp0, jobSt, Inv_okBrace] at hI
          exact ih_cast ih _ rfl (by simp [jobSt, hI])
        next p st2 heq2 =>
          have hI := ih (Job.sub a (push st i))
          rw [heq2] at hI
          simp only [jobFp0, jobSt, Inv_err] at hI
          simp [hI]
        next => exact trivial
        next => exact trivial
      · exact ih_cast ih _ rfl rfl
    | loopw fp0 ip base neg a st =>
      show Inv fp0 (clDiff st) (run prog (n + 1) (.loopw fp0 ip base neg a st))
      simp only [run]
      split
      next st1 heq1 =>
        have hI := ih (Job.sub a st)
        rw [heq1] at hI
        simp only [jobFp0, jobSt, Inv_okEnd] at hI
        split
        · exact ih_cast ih _ rfl (by simp [jobSt, hI.2])
        · exact ih_cast ih _ rfl (by simp [jobSt, hI.2])
      next st1 heq1 =>
        have hI := ih (Job.sub a st)
        rw [heq1] at hI
        simp only [jobFp0, jobSt, Inv_okBrace] at hI
        split
        · exact ih_cast ih _ rfl (by simp [jobSt, hI])
        · exact ih_cast ih _ rfl (by simp [jobSt, hI])
      next p st1 heq1 =>
        have hI := ih (Job.sub a st)
        rw [heq1] at hI
        simp only [jobFp0, jobSt, Inv_err] at hI
        simp [hI]
      next => exact trivial
      next => exact trivial
    | disp fp0 ip base neg op0 stIn =>
      show Inv fp0 (clDiff stIn) (run prog (n + 1) (.disp fp0 ip base neg op0 stIn))
      simp only [run]
      generalize (if op0 = '\n' then 'N' else op0) = op1
      split
      next st1 heq =>
        exact ih_cast ih _ rfl
          (by simp [jobSt, clDiff_simpleStep _ _ _ heq])
      next heq =>
        split
        -- '{'
        · split
          · simp
          · exact ih_cast ih _ rfl (by simp [jobSt])
        -- '}'
        · simp
        -- '('
        · split
          · simp
          · exact ih_cast ih _ rfl (by simp [jobSt])
        -- ']'
        · split
          · exact ih_cast ih _ rfl (by simp [jobSt])
          · split
            · exact ih_cast ih _ rfl (by simp [jobSt])
            · exact ih_cast ih _ rfl (by simp [jobSt])
        -- '\''
        · split
          · exact ih_cast ih _ rfl (by simp [jobSt])
          · exact ih_cast ih _ rfl (by simp [jobSt])
        -- 'e'
        · split
          next st4 heq4 =>
            have hI := ih (Job.sub (eSelect (traceStep stIn)).1 (eSelect (traceStep stIn)).2)
            rw [heq4] at hI
            simp only [jobFp0, jobSt, Inv_okEnd] at hI
            exact ih_cast ih _ rfl (by simp [jobSt, hI.2])
          next st4 heq4 =>
            have hI := ih (Job.sub (eSelect (traceStep stIn)).1 (eSelect (traceStep stIn)).2)
            rw [heq4] at hI
            simp only [jobFp0, jobSt, Inv_okBrace] at hI
            exact ih_cast ih _ rfl (by simp [jobSt, hI])
          next p st4 heq4 =>
            have hI := ih (Job.sub (eSelect (traceStep stIn)).1 (eSelect (traceStep stIn)).2)
            rw [heq4] at hI
            simp only [jobFp0, jobSt, Inv_err] at hI
            simp [hI]
          next => exact trivial
          next => exact trivial
        -- 'i'
        · split
          · split
            next st4 heq4 =>
              have hI := ih (Job.sub (pop (traceStep stIn)).1 (pop (pop (traceStep stIn)).2).2)
              rw [heq4] at hI
              simp only [jobFp0, jobSt, Inv_okEnd] at hI
              exact ih_cast ih _ rfl (by simp [jobSt, hI.2])
            next st4 heq4 =>
              have hI := ih (Job.sub (pop (traceStep stIn)).1 (pop (pop (traceStep stIn)).2).2)
              rw [heq4] at hI
              simp only [jobFp0, jobSt, Inv_okBrace] at hI
              exact ih_cast ih _ rfl (by simp [jobSt, hI])
            next p st4 heq4 =>
              have hI := ih (Job.sub (pop (traceStep stIn)).1 (pop (pop (traceStep stIn)).2).2)
              rw [heq4] at hI
              simp only [jobFp0, jobSt, Inv_err] at hI
              simp [hI]
            next => exact trivial
            next => exact trivial
          · exact ih_cast ih _ rfl (by simp [jobSt])
        -- 'l'
        · exact ih_cast ih _ rfl (by simp [jobSt])
        -- 'w'
        · exact ih_cast ih _ rfl (by simp [jobSt])
        -- 'x'
        · split
          next st4 heq4 =>
            have hI := ih (Job.sub (pop (traceStep stIn)).1 (pop (traceStep stIn)).2)
            rw [heq4] at hI
            simp only [jobFp0, jobSt, Inv_okEnd] at hI
            exact ih_cast ih _ rfl (by simp [jobSt, hI.2])
          next st4 heq4 =>
            have hI := ih (Job.sub (pop (traceStep stIn)).1 (pop (traceStep stIn)).2)
            rw [heq4] at hI
            simp only [jobFp0, jobSt, Inv_okBrace] at hI
            exact ih_cast ih _ rfl (by simp [jobSt, hI])
          next p st4 heq4 =>
            have hI := ih (Job.sub (pop (traceStep stIn)).1 (pop (traceStep stIn)).2)
            rw [heq4] at hI
            simp only [jobFp0, jobSt, Inv_err] at hI
            simp [hI]
          next => exact trivial
          next => exact trivial
        -- ':'
        · split
          · simp
          · split
            next st4 heq4 =>
              have hI := ih (Job.sub (read (pop (traceStep stIn)).2 (pop (traceStep stIn)).1)
                (pop (traceStep stIn)).2)
              rw [heq4] at hI
              simp only [jobFp0, jobSt, Inv_okEnd] at hI
              exact ih_cast ih _ rfl (by simp [jobSt, hI.2])
            next st4 heq4 =>
              have hI := ih (Job.sub (read (pop (traceStep stIn)).2 (pop (traceStep stIn)).1)
                (pop (traceStep stIn)).2)
              rw [heq4] at hI
              simp only [jobFp0, jobSt, Inv_okBrace] at hI
              exact ih_cast ih _ rfl (by simp [jobSt, hI])
            next p st4 heq4 =>
              have hI := ih (Job.sub (read (pop (traceStep stIn)).2 (pop (traceStep stIn)).1)
                (pop (traceStep stIn)).2)
              rw [heq4] at hI
              simp only [jobFp0, jobSt, Inv_err] at hI
              simp [hI]
            next => exact trivial
            next => exact trivial
        -- default
        · split
          · exact trivial
          · simp

/-! ### Concrete end-to-end counterexample executions -/

/-- Script bytes of `7 2 2\}`: pushes 7 2 2, marks a 2-element frame
(moving the frame pointer), then returns through the `}` case. -/
def c1prog : List Char := ['7', ' ', '2', ' ', '2', '\\', '\x7d']

/-- C1 counterexample: executing `7 2 2\}` returns successfully (through
the `}` case, not an error), yet the returned frame pointer is 15 while
the frame pointer at the call was 16 — the `case '}': return (NULL);`
statement bypasses the `m_fp = fp;` restore. -/
theorem c1_counterexample :
    errPos (execute c1prog 9 initState) = none ∧
    outFp (execute c1prog 9 initState) = some 15 ∧
    initState.fp = 16 := by decide

/-- Script bytes of `{Q}x`: captures the block `Q` and executes it; the
unknown opcode `Q` makes the inner execute fail at position 1. -/
def c2prog : List Char := ['\x7b', 'Q', '\x7d', 'x']

/-- C2 counterexample: the inner execute of the block fails at position 1
(the `Q`), but the outer execute returns position 3 (its own `x` opcode),
not the inner failing position: `goto error` discards the inner result and
returns the outer `ip - 1`. -/
theorem c2_counterexample :
    errPos (execute c2prog 12 initState) = some 3 ∧
    errPos (executeAt c2prog 12 1 initState) = some 1 ∧ ¬ (3 : Nat) = 1 := by decide

/-- Script bytes of `0 2{}l`. -/
def c5demo : List Char := ['0', ' ', '2', '\x7b', '\x7d', 'l']

/-- C5 counterexample: executing `0 2{}l` leaves the three values 0 1 2 on
the stack (top first [2,1,0]): `l` popped a block, a high bound 2 and a low
bound 0 and pushed the loop index before each execution — the range form.
Under the claimed counted form (`n block —`, no index pushed) the result
would have been the single leftover value 0. -/
theorem c5_counterexample :
    stackListOf (execute c5demo 30 initState) = some [2, 1, 0] := by decide

/-- Script bytes of `{a` (unmatched block start). -/
def c6prog : List Char := ['\x7b', 'a']

/-- C6 counterexample: for the script `{a` the opening `{` is at position
0, but the failing position returned is 1 (the last byte before the
terminator): the scan loop leaves ip just past the NUL, rewinds once, and
the error path rewinds once more. -/
theorem c6_counterexample :
    byteAt c6prog 0 = '\x7b' ∧
    errPos (execute c6prog 9 initState) = some 1 ∧ ¬ (1 : Nat) = 0 := by decide

/-- C7 counterexample: with trace enabled, executing the single space
script emits one trace record and increments the cycle counter by one —
the trace block runs before the `case ' ': continue;` skip, so spaces are
counted, contradicting the claim that they increment neither. -/
theorem c7_counterexample :
    outCycle (execute [' '] 3 { initState with traceOn := true }) = some 1 ∧
    outLines (execute [' '] 3 { initState with traceOn := true }) = some 1 := by decide

/-! ### C1: frame pointer restoration -/

/-- C1 (corrected).  The frame pointer is restored to its value at the
call only on the return taken after the main loop (`m_fp = fp;` before the
`return (NULL)` reached at the null terminator, a code path also taken by
the unmatched-delimiter failure): whenever execute returns through that
statement (`okEnd`), the returned frame pointer equals the frame pointer
at the call.  The claim's "on every return" is wrong: the
`case '}': return (NULL);` statement and the `goto error` failure paths
bypass the restore (`c1_counterexample`). -/
theorem c1_fp_restore (prog : List Char) (fuel : Nat) (st st' : ShellState)
    (h : execute prog fuel st = .okEnd st') : st'.fp = st.fp := by
  have hI := run_inv prog fuel (.main st.fp 0 10 false st)
  unfold execute at h
  rw [h] at hI
  exact hI.1

/-- Witness for C1: executing `5` pushes 5 and returns through the null
terminator with the frame pointer restored. -/
theorem c1_witness :
    ({ initState with sp := 15, tos := 5 } : ShellState).fp = initState.fp :=
  c1_fp_restore ['5'] 3 initState { initState with sp := 15, tos := 5 } (by decide)

/-! ### C7: trace records and the cycle counter -/

/-- C7 (corrected).  The number of emitted trace records always equals the
increase of the cycle counter (first conjunct, for every execution), but
the counted events are the dispatched bytes, not "opcodes excluding
whitespace and commas": a comma byte emits one trace record and adds one
cycle (second conjunct), and a number literal is absorbed with no record
(third conjunct).  The claim's exclusion of spaces and commas is refuted
by `c7_counterexample`. -/
theorem c7_trace :
    (∀ (prog : List Char) (fuel : Nat) (job : Job) (st' : ShellState),
      outState (run prog fuel job) = some st' → clDiff st' = clDiff (jobSt job)) ∧
    (outCycle (execute [','] 3 { initState with traceOn := true }) = some 1 ∧
      outLines (execute [','] 3 { initState with traceOn := true }) = some 1) ∧
    (outCycle (execute ['1', '2'] 3 { initState with traceOn := true }) = some 0 ∧
      stackListOf (execute ['1', '2'] 3 { initState with traceOn := true }) = some [12]) := by
  refine ⟨?_, by decide, by decide⟩
  intro prog fuel job st' h
  have hI := run_inv prog fuel job
  cases ho : run prog fuel job with
  | okEnd s =>
    rw [ho] at hI h
    simp only [outState, Option.some.injEq] at h
    subst h
    exact hI.2
  | okBrace s =>
    rw [ho] at hI h
    simp only [outState, Option.some.injEq] at h
    subst h
    exact hI
  | err p s =>
    rw [ho] at hI h
    simp only [outState, Option.some.injEq] at h
    subst h
    exact hI
  | ext =>
    rw [ho] at h
    exact absurd h (by simp [outState])
  | spin =>
    rw [ho] at h
    exact absurd h (by simp [outState])

/-- Witness for C7's quantified conjunct at a concrete execution. -/
theorem c7_witness :
    clDiff initState = clDiff (jobSt (Job.main 16 0 10 false initState)) :=
  c7_trace.1 [' '] 3 (Job.main 16 0 10 false initState) initState (by decide)

/-! ### C2: error propagation -/

/-- C2 (corrected).  A failing sub-script does make the invoking execute
fail (it short-circuits through `goto error` at each of `x`, `:`, `i`,
`e`, `l`, `w`), but the position returned by the outer execute is the
position of the invoking opcode in the outer script (the outer `ip`
rewound by one), not the inner failing position, which `goto error`
discards (see `c2_counterexample`).  One conjunct per invoking opcode; in
each, the hypothesis states that the recursive `execute(sp)` call on the
popped (for `:`, looked-up) script address fails, and the conclusion
gives the outer result. -/
theorem c2_error_prop :
    (∀ (prog : List Char) (n : Nat) (fp0 : Int) (ip : Nat) (base : Int) (neg : Bool)
      (st : ShellState) (p : Nat) (stE : ShellState),
      run prog n (.sub (pop (traceStep st)).1 (pop (traceStep st)).2) = .err p stE →
      run prog (n + 1) (.disp fp0 ip base neg 'x' st) = .err (ip - 1) stE) ∧
    (∀ (prog : List Char) (n : Nat) (fp0 : Int) (ip : Nat) (base : Int) (neg : Bool)
      (st : ShellState) (p : Nat) (stE : ShellState),
      ¬ read (pop (traceStep st)).2 (pop (traceStep st)).1 = 0 →
      run prog n (.sub (read (pop (traceStep st)).2 (pop (traceStep st)).1)
        (pop (traceStep st)).2) = .err p stE →
      run prog (n + 1) (.disp fp0 ip base neg ':' st) = .err (ip - 1) stE) ∧
    (∀ (prog : List Char) (n : Nat) (fp0 : Int) (ip : Nat) (base : Int) (neg : Bool)
      (st : ShellState) (p : Nat) (stE : ShellState),
      (pop (pop (traceStep st)).2).1 ≠ 0 →
      run prog n (.sub (pop (traceStep st)).1 (pop (pop (traceStep st)).2).2) = .err p stE →
      run prog (n + 1) (.disp fp0 ip base neg 'i' st) = .err (ip - 1) stE) ∧
    (∀ (prog : List Char) (n : Nat) (fp0 : Int) (ip : Nat) (base : Int) (neg : Bool)
      (st : ShellState) (p : Nat) (stE : ShellState),
      run prog n (.sub (eSelect (traceStep st)).1 (eSelect (traceStep st)).2) = .err p stE →
      run prog (n + 1) (.disp fp0 ip base neg 'e' st) = .err (ip - 1) stE) ∧
    (∀ (prog : List Char) (n : Nat) (fp0 : Int) (ip : Nat) (base : Int) (neg : Bool)
      (a i hi : Int) (st : ShellState) (p : Nat) (stE : ShellState),
      i ≤ hi →
      run prog n (.sub a (push st i)) = .err p stE →
      run prog (n + 1) (.loopl fp0 ip base neg a i hi st) = .err (ip - 1) stE) ∧
    (∀ (prog : List Char) (n : Nat) (fp0 : Int) (ip : Nat) (base : Int) (neg : Bool)
      (a : Int) (st : ShellState) (p : Nat) (stE : ShellState),
      run prog n (.sub a st) = .err p stE →
      run prog (n + 1) (.loopw fp0 ip base neg a st) = .err (ip - 1) stE) := by
  refine ⟨?_, ?_, ?_, ?_, ?_, ?_⟩
  · intro prog n fp0 ip base neg st p stE hsub
    have e : run prog (n + 1) (.disp fp0 ip base neg 'x' st) =
        (match run prog n (.sub (pop (traceStep st)).1 (pop (traceStep st)).2) with
         | .okEnd st4 => run prog n (.main fp0 ip base neg st4)
         | .okBrace st4 => run prog n (.main fp0 ip base neg st4)
         | .err _ st4 => .err (ip - 1) st4
         | .ext => .ext
         | .spin => .spin) := rfl
    rw [e, hsub]
  · intro prog n fp0 ip base neg st p stE hv hsub
    have e : run prog (n + 1) (.disp fp0 ip base neg ':' st) =
        (if read (pop (traceStep st)).2 (pop (traceStep st)).1 = 0 then
          Outcome.err (ip - 1) (pop (traceStep st)).2
        else
          match run prog n (.sub (read (pop (traceStep st)).2 (pop (traceStep st)).1)
              (pop (traceStep st)).2) with
          | .okEnd st4 => run prog n (.main fp0 ip base neg st4)
          | .okBrace st4 => run prog n (.main fp0 ip base neg st4)
          | .err _ st4 => .err (ip - 1) st4
          | .ext => .ext
          | .spin => .spin) := rfl
    rw [e, if_neg hv, hsub]
  · intro prog n fp0 ip base neg st p stE hf hsub
    have e : run prog (n + 1) (.disp fp0 ip base neg 'i' st) =
        (if (pop (pop (traceStep st)).2).1 ≠ 0 then
          match run prog n (.sub (pop (traceStep st)).1 (pop (pop (traceStep st)).2).2) with
          | .okEnd st4 => run prog n (.main fp0 ip base neg st4)
          | .okBrace st4 => run prog n (.main fp0 ip base neg st4)
          | .err _ st4 => .err (ip - 1) st4
          | .ext => .ext
          | .spin => .spin
        else run prog n (.main fp0 ip base neg (pop (pop (traceStep st)).2).2)) := rfl
    rw [e, if_pos hf, hsub]
  · intro prog n fp0 ip base neg st p stE hsub
    have e : run prog (n + 1) (.disp fp0 ip base neg 'e' st) =
        (match run prog n (.sub (eSelect (traceStep st)).1 (eSelect (traceStep st)).2) with
         | .okEnd st4 => run prog n (.main fp0 ip base neg st4)
         | .okBrace st4 => run prog n (.main fp0 ip base neg st4)
         | .err _ st4 => .err (ip - 1) st4
         | .ext => .ext
         | .spin => .spin) := rfl
    rw [e, hsub]
  · intro prog n fp0 ip base neg a i hi st p stE hle hsub
    have e : run prog (n + 1) (.loopl fp0 ip base neg a i hi st) =
        (if i ≤ hi then
          match run prog n (.sub a (push st i)) with
          | .okEnd st2 => run prog n (.loopl fp0 ip base neg a (i + 1) hi st2)
          | .okBrace st2 => run prog n (.loopl fp0 ip base neg a (i + 1) hi st2)
          | .err _ st2 => .err (ip - 1) st2
          | .ext => .ext
          | .spin => .spin
        else run prog n (.main fp0 ip base neg st)) := rfl
    rw [e, if_pos hle, hsub]
  · intro prog n fp0 ip base neg a st p stE hsub
    have e : run prog (n + 1) (.loopw fp0 ip base neg a st) =
        (match run prog n (.sub a st) with
         | .okEnd st1 =>
           if (pop st1).1 ≠ 0 then run prog n (.loopw fp0 ip base neg a (pop st1).2)
           else run prog n (.main fp0 ip base neg (pop st1).2)
         | .okBrace st1 =>
           if (pop st1).1 ≠ 0 then run prog n (.loopw fp0 ip base neg a (pop st1).2)
           else run prog n (.main fp0 ip base neg (pop st1).2)
         | .err _ st1 => .err (ip - 1) st1
         | .ext => .ext
         | .spin => .spin) := rfl
    rw [e, hsub]

/-- Witness for C2 (the `x` conjunct) at concrete inputs: the sub-script
`Q` fails at its own position 0, the outer dispatch of `x` at position 7
returns position 6. -/
theorem c2_witness :
    run ['Q'] 4 (.disp 99 7 10 false 'x' (push initState 0)) = .err 6 initState :=
  c2_error_prop.1 ['Q'] 3 99 7 10 false (push initState 0) 0 initState (by decide)

/-! ### C6: unmatched block/string delimiters -/

theorem byteAt_mem (prog : List Char) (s : Nat) (h : s < prog.length) :
    byteAt prog s ∈ prog := by
  unfold byteAt
  rw [List.getD_eq_getElem?_getD, List.getElem?_eq_getElem h]
  simp [List.getElem_mem h]

theorem byteAt_past (prog : List Char) (s : Nat) (h : prog.length ≤ s) :
    byteAt prog s = nulChar := by
  unfold byteAt
  rw [List.getD_eq_getElem?_getD, List.getElem?_eq_none (by omega)]
  rfl

/-- When the nesting scan runs into the terminating NUL of a script with no
embedded NUL bytes, the instruction pointer it leaves behind is one past
the terminator, `prog.length + 1`. -/
theorem scanAux_nul (prog : List Char) (lc rc : Char) (hrc : rc.toNat ≠ 0)
    (hn : ∀ c ∈ prog, c.toNat ≠ 0) :
    ∀ (k n s : Nat), k = prog.length + 1 - s → s ≤ prog.length →
      (scanAux prog lc rc k n s).1 = nulChar →
      (scanAux prog lc rc k n s).2 = prog.length + 1 := by
  intro k
  induction k with
  | zero =>
    intro n s hk hs h
    omega
  | succ m ih =>
    intro n s hk hs h
    by_cases hn0 : n = 0
    · subst hn0
      simp only [scanAux, if_pos rfl] at h
      exact absurd (congrArg Char.toNat h) (by simpa using hrc)
    · by_cases hsl : s < prog.length
      · have hb : ¬ (byteAt prog s).toNat = 0 := hn _ (byteAt_mem prog s hsl)
        simp only [scanAux] at h ⊢
        rw [if_neg hn0] at h ⊢
        rw [if_neg hb] at h ⊢
        exact ih _ (s + 1) (by omega) (by omega) h
      · have hb : (byteAt prog s).toNat = 0 := by
          rw [byteAt_past prog s (by omega)]
          rfl
        simp only [scanAux] at h ⊢
        rw [if_neg hn0] at h ⊢
        rw [if_pos hb] at h ⊢
        show s + 1 = prog.length + 1
        omega

/-- C6 (corrected).  For a script with no embedded NUL byte, an unmatched
`{` (first conjunct) or `(` (second conjunct) makes execute fail, but the
failing position is `prog.length - 1`, the last byte before the
terminator (the scan leaves ip one past the NUL, the scan-exit code
rewinds once and the error path rewinds again) — not the position of the
opening delimiter, unless that delimiter happens to be the script's last
byte (see `c6_counterexample`).  The frame pointer is restored on this
path, which falls out of the main loop through `m_fp = fp;`. -/
theorem c6_unmatched (prog : List Char) (fuel : Nat) (fp0 : Int) (ip : Nat) (base : Int)
    (neg : Bool) (st : ShellState)
    (hn : ∀ c ∈ prog, c.toNat ≠ 0) (hip : ip ≤ prog.length) :
    ((scanMatch prog '\x7b' '\x7d' 1 ip).1 = nulChar →
      run prog (fuel + 1) (.disp fp0 ip base neg '\x7b' st) =
        .err (prog.length - 1) { push (traceStep st) (ip : Int) with fp := fp0 }) ∧
    ((scanMatch prog '(' ')' 1 ip).1 = nulChar →
      run prog (fuel + 1) (.disp fp0 ip base neg '(' st) =
        .err (prog.length - 1) { traceStep st with fp := fp0 }) := by
  constructor
  · intro hsc
    have e : run prog (fuel + 1) (.disp fp0 ip base neg '\x7b' st) =
        (if (scanMatch prog '\x7b' '\x7d' 1 ip).1.toNat = 0 then
          Outcome.err ((scanMatch prog '\x7b' '\x7d' 1 ip).2 - 2)
            { push (traceStep st) (ip : Int) with fp := fp0 }
        else run prog fuel
          (.main fp0 (scanMatch prog '\x7b' '\x7d' 1 ip).2 base neg
            (push (traceStep st) (ip : Int)))) := rfl
    rw [e, if_pos (by rw [hsc]; rfl)]
    have h2 := scanAux_nul prog '\x7b' '\x7d' (by decide) hn
      (prog.length + 1 - ip) 1 ip rfl hip hsc
    show Outcome.err ((scanAux prog '\x7b' '\x7d' (prog.length + 1 - ip) 1 ip).2 - 2) _ =
      _
    rw [h2, show prog.length + 1 - 2 = prog.length - 1 from by omega]
  · intro hsc
    have e : run prog (fuel + 1) (.disp fp0 ip base neg '(' st) =
        (if (scanMatch prog '(' ')' 1 ip).1.toNat = 0 then
          Outcome.err ((scanMatch prog '(' ')' 1 ip).2 - 2) { traceStep st with fp := fp0 }
        else run prog fuel
          (.main fp0 (scanMatch prog '(' ')' 1 ip).2 base neg (traceStep st))) := rfl
    rw [e, if_pos (by rw [hsc]; rfl)]
    have h2 := scanAux_nul prog '(' ')' (by decide) hn
      (prog.length + 1 - ip) 1 ip rfl hip hsc
    show Outcome.err ((scanAux prog '(' ')' (prog.length + 1 - ip) 1 ip).2 - 2) _ = _
    rw [h2, show prog.length + 1 - 2 = prog.length - 1 from by omega]

/-- Witness for C6 on the script `{a`: the `{` at position 0 is dispatched
with ip = 1, the scan is unterminated, and the failing position is 1 (the
last byte), with the frame pointer restored. -/
theorem c6_witness :
    run ['\x7b', 'a'] 3 (.disp 16 1 10 false '\x7b' initState) =
      .err 1 { push (traceStep initState) 1 with fp := 16 } :=
  (c6_unmatched ['\x7b', 'a'] 2 16 1 10 false initState (by decide) (by decide)).1 (by decide)

/-! ### C5: the `l` loop opcode -/

/-- The list i, i+1, ..., i+k-1. -/
def rangeListAux (i : Int) : Nat → List Int
  | 0 => []
  | k + 1 => i :: rangeListAux (i + 1) k

/-- The integers from `i` to `hi` inclusive, in increasing order. -/
def rangeList (i hi : Int) : List Int := rangeListAux i (hi + 1 - i).toNat

/-- Push a list of values left to right. -/
def pushAll (st : ShellState) (l : List Int) : ShellState := l.foldl push st

theorem rangeListAux_length (i : Int) (k : Nat) : (rangeListAux i k).length = k := by
  induction k generalizing i with
  | zero => rfl
  | succ m ih => simp [rangeListAux, ih]

theorem rangeList_length (i hi : Int) : (rangeList i hi).length = (hi + 1 - i).toNat :=
  rangeListAux_length i _

theorem push_traceOn (st : ShellState) (v : Int) : (push st v).traceOn = st.traceOn := by
  unfold push
  split <;> rfl

theorem push_cells_length (st : ShellState) (v : Int) :
    (push st v).cells.length = st.cells.length := by
  unfold push
  split
  · show (cellSet st.cells _ st.tos).length = _
    unfold cellSet
    split
    · simp
    · rfl
  · rfl

theorem cellGet_cellSet_eq (cells : List Int) (i v : Int) (h0 : 0 ≤ i)
    (hl : i.toNat < cells.length) : cellGet (cellSet cells i v) i = v := by
  unfold cellGet cellSet
  rw [if_pos h0, if_pos h0, List.getD_eq_getElem?_getD,
    List.getElem?_set_self (by simpa using hl)]
  rfl

theorem cellGet_cellSet_ne (cells : List Int) (i j v : Int) (hij : i ≠ j) :
    cellGet (cellSet cells i v) j = cellGet cells j := by
  unfold cellGet cellSet
  by_cases h0i : 0 ≤ i
  · rw [if_pos h0i]
    by_cases h0j : 0 ≤ j
    · rw [if_pos h0j, if_pos h0j, List.getD_eq_getElem?_getD, List.getD_eq_getElem?_getD,
        List.getElem?_set_ne (by omega)]
    · rw [if_neg h0j, if_neg h0j]
  · rw [if_neg h0i]

theorem stackList_fpSet (st : ShellState) (v : Int) :
    stackList { st with fp := v } = stackList st := rfl

/-- Pushing onto a stack with room prepends the value to the observable
stack. -/
theorem stackList_push (st : ShellState) (v : Int) (h0 : 0 < st.sp) (h16 : st.sp ≤ 16)
    (hc : st.cells.length = 48) :
    stackList (push st v) = v :: stackList st := by
  have hd : depth st ≠ STACK_MAX := by
    unfold depth STACK_MAX
    omega
  have hsp : (push st v).sp = st.sp - 1 := push_sp_of_ne st v hd
  have hcl : (push st v).cells = cellSet st.cells (VAR_MAX + st.sp - 1) st.tos := by
    unfold push
    rw [if_pos hd]
  have htos : (push st v).tos = v := push_tos st v
  unfold stackList
  rw [hsp, hcl, htos]
  rw [if_pos (show st.sp - 1 < STACK_MAX from by unfold STACK_MAX; omega)]
  by_cases hlt : st.sp < STACK_MAX
  · rw [if_pos hlt]
    have hn15 : 15 - (st.sp - 1).toNat = (15 - st.sp.toNat) + 1 := by
      unfold STACK_MAX at hlt
      omega
    rw [hn15, List.range_succ_eq_map, List.map_cons, List.map_map]
    congr 1
    congr 1
    · show cellGet (cellSet st.cells (VAR_MAX + st.sp - 1) st.tos)
        (VAR_MAX + (st.sp - 1) + ((0 : Nat) : Int)) = st.tos
      rw [show VAR_MAX + (st.sp - 1) + ((0 : Nat) : Int) = VAR_MAX + st.sp - 1 from by
        push_cast; ring]
      exact cellGet_cellSet_eq st.cells _ st.tos (by unfold VAR_MAX; omega)
        (by rw [hc]; unfold VAR_MAX; omega)
    · apply List.map_congr_left
      intro j hj
      show cellGet (cellSet st.cells (VAR_MAX + st.sp - 1) st.tos)
        (VAR_MAX + (st.sp - 1) + ((Nat.succ j : Nat) : Int)) =
        cellGet st.cells (VAR_MAX + st.sp + (j : Int))
      rw [show VAR_MAX + (st.sp - 1) + ((Nat.succ j : Nat) : Int) =
          VAR_MAX + st.sp + (j : Int) from by push_cast; ring]
      exact cellGet_cellSet_ne st.cells _ _ st.tos (by omega)
  · rw [if_neg hlt]
    have hsp16 : st.sp = 16 := by unfold STACK_MAX at *; omega
    rw [show 15 - (st.sp - 1).toNat = 0 from by omega]
    rfl

/-- Pushing a list of values with room prepends them in reverse order. -/
theorem stackList_pushAll (l : List Int) : ∀ (st : ShellState), st.sp ≤ 16 →
    (l.length : Int) ≤ st.sp → st.cells.length = 48 →
    stackList (pushAll st l) = l.reverse ++ stackList st := by
  induction l with
  | nil =>
    intro st _ _ _
    simp [pushAll]
  | cons a t ih =>
    intro st h16 hroom hc
    have h0 : 0 < st.sp := by
      simp only [List.length_cons] at hroom
      push_cast at hroom
      omega
    have hd : depth st ≠ STACK_MAX := by
      unfold depth STACK_MAX
      omega
    have hsp := push_sp_of_ne st a hd
    show stackList (pushAll (push st a) t) = _
    rw [ih (push st a) (by rw [hsp]; omega)
      (by rw [hsp]; simp only [List.length_cons] at hroom; push_cast at hroom ⊢; omega)
      (by rw [push_cells_length]; exact hc)]
    rw [stackList_push st a h0 h16 hc]
    simp

/-- Script bytes of `{}l` (an empty block followed by the loop opcode). -/
def c5prog : List Char := ['\x7b', '\x7d', 'l']

/-- The state reached in `execute "{}l"` right after the `l` opcode has
popped the block address and both bounds. -/
def c5start (lo hi : Int) : ShellState :=
  { cells := (((List.replicate 48 0).set 47 0).set 46 lo).set 45 hi, sp := 16, fp := 16,
    tos := 0, marker := -1, traceOn := false, cycle := 0, lines := 0, obase := 10 }

/-- One unfolding of a `loopl` iteration. -/
theorem run_loopl_step (prog : List Char) (n : Nat) (fp0 : Int) (ip : Nat) (base : Int)
    (neg : Bool) (a i hi : Int) (st : ShellState) :
    run prog (n + 1) (.loopl fp0 ip base neg a i hi st) =
      (if i ≤ hi then
        match run prog n (.sub a (push st i)) with
        | .okEnd st2 => run prog n (.loopl fp0 ip base neg a (i + 1) hi st2)
        | .okBrace st2 => run prog n (.loopl fp0 ip base neg a (i + 1) hi st2)
        | .err _ st2 => .err (ip - 1) st2
        | .ext => .ext
        | .spin => .spin
      else run prog n (.main fp0 ip base neg st)) := rfl

set_option maxHeartbeats 1000000 in
/-- The `l` loop of Shell.h on the empty block at address 1 of `{}l`:
for i = lo, ..., hi it pushes i and executes the block (which returns at
once through its `}`), then the script ends at the null terminator with
the frame pointer restored. -/
theorem c5_loop (r : Nat) :
    ∀ (i hi : Int) (st : ShellState) (fp0 base : Int) (neg : Bool),
      (hi + 1 - i).toNat = r → st.traceOn = false →
      run c5prog (r + 4) (.loopl fp0 3 base neg 1 i hi st) =
        .okEnd { pushAll st (rangeList i hi) with fp := fp0 } := by
  induction r with
  | zero =>
    intro i hi st fp0 base neg hr ht
    have hgt : ¬ i ≤ hi := by omega
    have hnil : rangeList i hi = [] := by
      unfold rangeList
      rw [hr]
      rfl
    rw [hnil]
    show run c5prog (3 + 1) (.loopl fp0 3 base neg 1 i hi st) = _
    rw [run_loopl_step, if_neg hgt]
    rfl
  | succ m ih =>
    intro i hi st fp0 base neg hr ht
    have hle : i ≤ hi := by omega
    have hm : (hi + 1 - (i + 1)).toNat = m := by omega
    have hcons : rangeList i hi = i :: rangeList (i + 1) hi := by
      unfold rangeList
      rw [hr, hm]
      rfl
    have e1 : run c5prog (m + 4) (.sub 1 (push st i)) =
        .okBrace (traceStep (push st i)) := rfl
    have e2 : traceStep (push st i) = push st i := by
      unfold traceStep
      rw [if_neg (by rw [push_traceOn, ht]; simp)]
    show run c5prog ((m + 4) + 1) (.loopl fp0 3 base neg 1 i hi st) = _
    rw [run_loopl_step, if_pos hle, e1, e2]
    show run c5prog (m + 4) (.loopl fp0 3 base neg 1 (i + 1) hi (push st i)) = _
    rw [hcons]
    exact ih (i + 1) hi (push st i) fp0 base neg hm (by rw [push_traceOn]; exact ht)

set_option maxHeartbeats 1000000 in
/-- C5 (corrected).  The `l` opcode of Shell.h is the range form, not the
counted form of the claim: it pops a block address, a high bound and a low
bound, pushes the loop index i before each execution, and executes the
block once for each i from low to high inclusive.  Concretely, executing
`{}l` with lo and hi on the stack leaves exactly the integers lo..hi on
the stack (top first hi..lo); under the claimed counted form nothing
would be pushed (see `c5_counterexample`). -/
theorem c5_range_loop (lo hi : Int) (hk : (hi + 1 - lo).toNat ≤ 16) :
    stackListOf (execute c5prog ((hi + 1 - lo).toNat + 8) (push (push initState lo) hi)) =
      some ((rangeList lo hi).reverse) := by
  have e0 : execute c5prog ((hi + 1 - lo).toNat + 8) (push (push initState lo) hi) =
      run c5prog ((hi + 1 - lo).toNat + 4)
        (.loopl 16 3 10 false 1 lo hi (c5start lo hi)) := rfl
  rw [e0, c5_loop ((hi + 1 - lo).toNat) lo hi (c5start lo hi) 16 10 false rfl rfl]
  show some (stackList { pushAll (c5start lo hi) (rangeList lo hi) with fp := 16 }) = _
  rw [stackList_fpSet]
  rw [stackList_pushAll (rangeList lo hi) (c5start lo hi) (by norm_num [c5start])
    (by rw [rangeList_length]; show ((hi + 1 - lo).toNat : Int) ≤ (16 : Int); exact_mod_cast hk)
    (by simp [c5start])]
  show some ((rangeList lo hi).reverse ++ []) = _
  simp

/-- Witness for C5 at lo = 0, hi = 2: the stack ends as [2, 1, 0]. -/
theorem c5_witness :
    stackListOf (execute c5prog (((2 : Int) + 1 - 0).toNat + 8)
      (push (push initState 0) 2)) = some ((rangeList 0 2).reverse) :=
  c5_range_loop 0 2 (by decide)

end ArduinoShell
